import Mathlib

/-!
Verification of the voyage-economics core of the freight decision assistant
(file output/voyage_economics.py, with the recommendation branch of
output/app_streamlit.py).

Python floats are modelled by rationals; a Python exception raised inside a
function is modelled by an Option/Except failure value.  Optional fields of a
baseline record (accessed in the source through dict.get with a default) are
modelled as Option fields, with getD playing the role of dict.get.
-/

namespace VoyageEconomics

/-- A baseline voyage record (one row of the precomputed results table).
Fields read through dict.get in the source are optional here; vessel and
cargo are accessed with mandatory indexing in the source, so they are plain
strings. -/
structure BaseRow where
  vessel : String
  cargo : String
  days : Option ℚ
  profit : Option ℚ
  total_vlsfo_mt : Option ℚ
  total_mgo_mt : Option ℚ
  speed_knots : Option ℚ
  vlsfo_price : Option ℚ
  mgo_price : Option ℚ
deriving DecidableEq

/-- The dictionary returned by run_partial_voyage, as a structure.  All keys
are always present in the source dictionary, so every field is total. -/
structure RecalcResult where
  profit : ℚ
  adj_profit : ℚ
  tce : ℚ
  adj_tce : ℚ
  days : ℚ
  fuel_vlsfo_mt : ℚ
  fuel_mgo_mt : ℚ
deriving DecidableEq

/-- Embedding of run_partial_voyage (voyage_economics.py lines 4-46).
The only statement of the body that can raise on numeric input is
fuel_factor = (speed_knots / base_speed) ** 3, a Python ZeroDivisionError
when the baseline speed is 0; that exception is modelled by the none result.
Every other line is translated directly. -/
def run_partial_voyage (base_row : BaseRow) (vlsfo_price mgo_price speed_knots extra_days
    daily_hire opex_per_day : ℚ) : Option RecalcResult :=
  let base_days := base_row.days.getD 1
  let base_profit := base_row.profit.getD 0
  let base_vlsfo_mt := base_row.total_vlsfo_mt.getD 0
  let base_mgo_mt := base_row.total_mgo_mt.getD 0
  let base_speed := base_row.speed_knots.getD 12
  if base_speed = 0 then none
  else
    let speed_factor := base_speed / max speed_knots 1
    let sailing_days := base_days * speed_factor
    let total_days := sailing_days + extra_days
    let fuel_factor := (speed_knots / base_speed) ^ 3
    let vlsfo_mt := base_vlsfo_mt * fuel_factor
    let mgo_mt := base_mgo_mt * fuel_factor
    let bunker_cost := vlsfo_mt * vlsfo_price + mgo_mt * mgo_price
    let time_cost := total_days * (daily_hire + opex_per_day)
    let base_bunker_cost := base_vlsfo_mt * (base_row.vlsfo_price.getD vlsfo_price) +
      base_mgo_mt * (base_row.mgo_price.getD mgo_price)
    let base_time_cost := base_days * (daily_hire + opex_per_day)
    let revenue := base_profit + base_bunker_cost + base_time_cost
    let profit := revenue - bunker_cost - time_cost
    let tce := if total_days > 0 then profit / total_days else 0
    some {
      profit := profit
      adj_profit := profit
      tce := tce
      adj_tce := tce
      days := total_days
      fuel_vlsfo_mt := vlsfo_mt
      fuel_mgo_mt := mgo_mt
    }

/-- The pricing kernel exactly as the specification words it (section 4.1 of
the spec), written from the spec text for comparison against the source
embedding run_partial_voyage. -/
def pricingKernelSpec (base_row : BaseRow) (vlsfo_price mgo_price speed_knots extra_days
    daily_hire opex_per_day : ℚ) : RecalcResult :=
  let base_speed := base_row.speed_knots.getD 12
  let speed_factor := base_speed / max speed_knots 1
  let total_days := base_row.days.getD 1 * speed_factor + extra_days
  let fuel_factor := (speed_knots / base_speed) ^ 3
  let bunker_cost := base_row.total_vlsfo_mt.getD 0 * fuel_factor * vlsfo_price +
    base_row.total_mgo_mt.getD 0 * fuel_factor * mgo_price
  let time_cost := total_days * (daily_hire + opex_per_day)
  let base_bunker_cost := base_row.total_vlsfo_mt.getD 0 * (base_row.vlsfo_price.getD vlsfo_price) +
    base_row.total_mgo_mt.getD 0 * (base_row.mgo_price.getD mgo_price)
  let base_time_cost := base_row.days.getD 1 * (daily_hire + opex_per_day)
  let revenue := base_row.profit.getD 0 + base_bunker_cost + base_time_cost
  let profit := revenue - bunker_cost - time_cost
  { profit := profit
    adj_profit := profit
    tce := if total_days > 0 then profit / total_days else 0
    adj_tce := if total_days > 0 then profit / total_days else 0
    days := total_days
    fuel_vlsfo_mt := base_row.total_vlsfo_mt.getD 0 * fuel_factor
    fuel_mgo_mt := base_row.total_mgo_mt.getD 0 * fuel_factor }

/-- Totality helper: with a nonzero baseline speed the recalculation never
fails. -/
theorem run_partial_voyage_eq_kernel (b : BaseRow) (vp mp sk ed dh op : ℚ)
    (h : b.speed_knots.getD 12 ≠ 0) :
    run_partial_voyage b vp mp sk ed dh op = some (pricingKernelSpec b vp mp sk ed dh op) := by
  simp only [run_partial_voyage, pricingKernelSpec, if_neg h]

/-- One entry of the profits list built inside the threshold sweeps. -/
structure ProfitEntry where
  vessel : String
  cargo : String
  profit : ℚ
deriving DecidableEq

/-- Embedding of the Python builtin max(profits, key=lambda x: x["profit"]):
scans left to right and replaces the current best only on a strictly larger
key, so the first of several tied maxima wins; on an empty list Python raises
ValueError, modelled by none. -/
def pyMax (l : List ProfitEntry) : Option ProfitEntry :=
  match l with
  | [] => none
  | x :: xs => some (xs.foldl (fun acc y => if y.profit > acc.profit then y else acc) x)

/-- The inner loop of both sweeps: recalculate every candidate row and collect
vessel, cargo and recalculated profit.  A ZeroDivisionError raised by
run_partial_voyage on any row aborts the whole loop, modelled by none.
The sweeps call run_partial_voyage with its default hire and opex arguments
12000 and 3000. -/
def profitsAt (rows : List BaseRow) (vp mp sk ed : ℚ) : Option (List ProfitEntry) :=
  match rows with
  | [] => some []
  | r :: rs =>
    match run_partial_voyage r vp mp sk ed 12000 3000 with
    | none => none
    | some res =>
      match profitsAt rs vp mp sk ed with
      | none => none
      | some ps => some (⟨r.vessel, r.cargo, res.profit⟩ :: ps)

/-- Exceptions that the threshold sweeps can raise: a ZeroDivisionError
propagated out of run_partial_voyage, or the ValueError raised by max on an
empty profits list. -/
inductive SweepError where
  | zeroBaseSpeed
  | maxOfEmpty
deriving DecidableEq

/-- The flip test applied to the top choice at one sweep value
(voyage_economics.py lines 63 and 83), with epsilon = 1e-3: the top choice
carries a different assignment key and its profit is farther than epsilon
from the baseline profit. -/
def FlipCond (current_vessel current_cargo : String) (base_profit : ℚ)
    (top : ProfitEntry) : Prop :=
  (top.vessel ≠ current_vessel ∨ top.cargo ≠ current_cargo) ∧
    1 / 1000 < |top.profit - base_profit|

instance (cv cc : String) (bp : ℚ) (top : ProfitEntry) : Decidable (FlipCond cv cc bp top) :=
  inferInstanceAs (Decidable (And _ _))

/-- Whether the flip condition fires at sweep value v: the profits list and
its first-seen maximum must both exist and the top choice must pass the flip
test. -/
def flipAt (current_vessel current_cargo : String) (base_profit : ℚ)
    (profitsOf : ℚ → Option (List ProfitEntry)) (v : ℚ) : Prop :=
  match profitsOf v with
  | none => False
  | some ps =>
    match pyMax ps with
    | none => False
    | some top => FlipCond current_vessel current_cargo base_profit top

/-- The shared sweep loop of both threshold routines, over an explicit list of
sweep values.  Returns ok none for the exhausted-range (None, None, None)
outcome and ok (some triple) at the first flip; an exception inside an
iteration is an error value. -/
def sweepLoop (current_vessel current_cargo : String) (base_profit : ℚ)
    (profitsOf : ℚ → Option (List ProfitEntry)) :
    List ℚ → Except SweepError (Option (ℚ × ProfitEntry × List ProfitEntry))
  | [] => .ok none
  | v :: vs =>
    match profitsOf v with
    | none => .error .zeroBaseSpeed
    | some profits =>
      match pyMax profits with
      | none => .error .maxOfEmpty
      | some top =>
        if FlipCond current_vessel current_cargo base_profit top then
          .ok (some (v, top, profits))
        else
          sweepLoop current_vessel current_cargo base_profit profitsOf vs

/-- Embedding of numpy.arange(start, stop, step) for a positive step: the
values start + i * step for all natural i with start + i * step < stop.
The source only ever calls it with a positive step. -/
def arange (start stop step : ℚ) : List ℚ :=
  if 0 < step then
    (List.range ⌈(stop - start) / step⌉.toNat).map (fun i : ℕ => start + (i : ℚ) * step)
  else []

/-- Embedding of find_delay_threshold (voyage_economics.py lines 49-65).
The sweep runs over numpy.arange(extra_days_start, extra_days_end + step,
step); base_profit is the baseline recalculated at extra_days_start. -/
def find_delay_threshold (base_row : BaseRow) (rows : List BaseRow)
    (vlsfo_price mgo_price speed_knots extra_days_start extra_days_end step : ℚ) :
    Except SweepError (Option (ℚ × ProfitEntry × List ProfitEntry)) :=
  match run_partial_voyage base_row vlsfo_price mgo_price speed_knots extra_days_start
      12000 3000 with
  | none => .error .zeroBaseSpeed
  | some base_result =>
    sweepLoop base_row.vessel base_row.cargo base_result.profit
      (fun v => profitsAt rows vlsfo_price mgo_price speed_knots v)
      (arange extra_days_start (extra_days_end + step) step)

/-- Embedding of find_bunker_price_threshold (voyage_economics.py lines
67-85).  The swept quantity is a percentage increase applied to vlsfo_price;
base_profit is the baseline recalculated at the UNPERTURBED vlsfo_price
(line 72 of the source uses vlsfo_price, not the sweep's starting value). -/
def find_bunker_price_threshold (base_row : BaseRow) (rows : List BaseRow)
    (vlsfo_price mgo_price speed_knots extra_days
      price_increase_start price_increase_end step : ℚ) :
    Except SweepError (Option (ℚ × ProfitEntry × List ProfitEntry)) :=
  match run_partial_voyage base_row vlsfo_price mgo_price speed_knots extra_days
      12000 3000 with
  | none => .error .zeroBaseSpeed
  | some base_result =>
    sweepLoop base_row.vessel base_row.cargo base_result.profit
      (fun pct => profitsAt rows (vlsfo_price * (1 + pct / 100)) mgo_price speed_knots extra_days)
      (arange price_increase_start (price_increase_end + step) step)

/-- The bunker-price sweep as the specification words it (spec section 4.2,
shared algorithm step 1): base_profit is obtained by recalculating the
baseline record at the sweep's STARTING value, i.e. at the perturbed price
vlsfo_price * (1 + price_increase_start / 100).  Written from the spec text
for comparison against the source embedding. -/
def find_bunker_price_threshold_spec (base_row : BaseRow) (rows : List BaseRow)
    (vlsfo_price mgo_price speed_knots extra_days
      price_increase_start price_increase_end step : ℚ) :
    Except SweepError (Option (ℚ × ProfitEntry × List ProfitEntry)) :=
  match run_partial_voyage base_row (vlsfo_price * (1 + price_increase_start / 100))
      mgo_price speed_knots extra_days 12000 3000 with
  | none => .error .zeroBaseSpeed
  | some base_result =>
    sweepLoop base_row.vessel base_row.cargo base_result.profit
      (fun pct => profitsAt rows (vlsfo_price * (1 + pct / 100)) mgo_price speed_knots extra_days)
      (arange price_increase_start (price_increase_end + step) step)

/-- The three possible outcomes of the recommendation branch. -/
inductive Recommendation where
  | ASSIGN
  | HEDGE
  | DECLINE
deriving DecidableEq

/-- Embedding of the recommendation branch of app_streamlit.py lines 184-189:
if adj_profit >= 0 ASSIGN, elif adj_profit > -0.05 * max(1.0, orig_profit)
HEDGE, else DECLINE. -/
def recommendation (adj_profit orig_profit : ℚ) : Recommendation :=
  if adj_profit ≥ 0 then .ASSIGN
  else if adj_profit > -(5 / 100) * max 1 orig_profit then .HEDGE
  else .DECLINE

/-- Concrete baseline record: one ton of VLSFO at a recorded price of 500,
zero baseline profit, one day, baseline speed 12. -/
def rowA : BaseRow := ⟨"A", "X", some 1, some 0, some 1, some 0, some 12, some 500, some 0⟩

/-- Concrete alternative record with a different assignment key and a tiny
baseline profit of 1/2000, otherwise identical to rowA. -/
def rowB : BaseRow := ⟨"B", "Y", some 1, some (1 / 2000), some 1, some 0, some 12, some 500, some 0⟩

/-- Concrete record whose speed_knots field is present and equal to zero. -/
def rowZ : BaseRow := ⟨"Z", "W", some 1, some 0, none, none, some 0, none, none⟩

/-- Concrete record whose days field is present and equal to zero. -/
def rowD0 : BaseRow := ⟨"D", "X", some 0, some 0, none, none, some 12, none, none⟩

/-- Concrete record whose baseline speed 1/2 lies below the max-guard
threshold of 1, with both price fields recorded. -/
def rowSlow : BaseRow := ⟨"S", "X", some 1, some 0, none, none, some (1 / 2), some 500, some 650⟩

/-- Concrete record with positive VLSFO consumption whose vlsfo_price field
is absent, so the baseline bunker cost falls back to the override price. -/
def rowAbs : BaseRow := ⟨"C", "X", some 1, some 0, some 8, some 0, some 12, none, none⟩

/-- Concrete record whose days field is absent. -/
def rowNoDays : BaseRow := ⟨"N", "X", none, some 0, none, none, some 12, none, none⟩

/-- C1: for every baseline record with a nonzero baseline speed and all
numeric inputs, run_partial_voyage returns exactly the value of the pricing
kernel the specification states: speed-scaled days, cubic fuel factor, costs,
revenue backed out from the baseline, profit = revenue - bunker_cost -
time_cost, and tce = profit / total_days when total_days > 0 and 0 otherwise,
never an exception. -/
theorem run_partial_voyage_is_spec_kernel (b : BaseRow) (vp mp sk ed dh op : ℚ)
    (h : b.speed_knots.getD 12 ≠ 0) :
    run_partial_voyage b vp mp sk ed dh op = some (pricingKernelSpec b vp mp sk ed dh op) :=
  run_partial_voyage_eq_kernel b vp mp sk ed dh op h

/-- Witness for C1 at a concrete record with baseline speed 12. -/
theorem run_partial_voyage_is_spec_kernel_witness :
    run_partial_voyage rowA 500 650 12 0 12000 3000 =
      some (pricingKernelSpec rowA 500 650 12 0 12000 3000) :=
  run_partial_voyage_is_spec_kernel rowA 500 650 12 0 12000 3000 (by decide)

/-- C4 counterexample: on a record whose speed_knots field is present and
equal to 0, run_partial_voyage raises ZeroDivisionError at the fuel_factor
division (modelled by the none result) instead of degrading to a value, so
the fuel_factor computation is not safe there. -/
theorem run_partial_voyage_raises_on_zero_base_speed :
    rowZ.speed_knots = some 0 ∧ run_partial_voyage rowZ 500 650 12 0 12000 3000 = none := by
  decide

/-- C4 amended: run_partial_voyage never raises when the baseline speed is
nonzero; the speed-override and TCE divisions are guarded, but a baseline
speed of zero raises in fuel_factor. -/
theorem run_partial_voyage_total_of_nonzero_speed (b : BaseRow) (vp mp sk ed dh op : ℚ)
    (h : b.speed_knots.getD 12 ≠ 0) :
    ∃ r, run_partial_voyage b vp mp sk ed dh op = some r :=
  ⟨pricingKernelSpec b vp mp sk ed dh op, run_partial_voyage_eq_kernel b vp mp sk ed dh op h⟩

/-- Witness for the amended C4 at a concrete record. -/
theorem run_partial_voyage_total_of_nonzero_speed_witness :
    ∃ r, run_partial_voyage rowA 500 650 12 0 12000 3000 = some r :=
  run_partial_voyage_total_of_nonzero_speed rowA 500 650 12 0 12000 3000 (by decide)

/-- C5 counterexample: a record whose days field is present and equal to zero
is NOT treated as having a one-day baseline duration: the recalculated voyage
length is 0, while the same record with days = 1 yields 1. -/
theorem days_zero_not_defaulted :
    rowD0.days = some 0 ∧
    (run_partial_voyage rowD0 500 650 12 0 12000 3000).map RecalcResult.days = some 0 ∧
    (run_partial_voyage { rowD0 with days := some 1 } 500 650 12 0 12000 3000).map
      RecalcResult.days = some 1 ∧
    (some (0 : ℚ) : Option ℚ) ≠ some 1 := by
  refine ⟨rfl, ?_, ?_, by simp⟩
  · norm_num [run_partial_voyage, rowD0]
  · norm_num [run_partial_voyage, rowD0, max_def]

/-- C5 amended: the default duration of 1 applies only when the days field is
absent; a present zero is used as zero. -/
theorem days_default_only_when_absent (b : BaseRow) (vp mp sk ed dh op : ℚ)
    (h : b.days = none) :
    run_partial_voyage b vp mp sk ed dh op =
      run_partial_voyage { b with days := some 1 } vp mp sk ed dh op := by
  simp [run_partial_voyage, h]

/-- Witness for the amended C5 at a record with an absent days field. -/
theorem days_default_only_when_absent_witness :
    run_partial_voyage rowNoDays 500 650 12 0 12000 3000 =
      run_partial_voyage { rowNoDays with days := some 1 } 500 650 12 0 12000 3000 :=
  days_default_only_when_absent rowNoDays 500 650 12 0 12000 3000 (by decide)

/-- C7 counterexample: at a baseline speed of 1/2 the max-guard in
speed_factor makes speed_factor = 1/2 rather than 1, so recalculating at the
baseline speed with the baseline prices does not reproduce the baseline
profit: the record's profit is 0 but the recalculation returns 7500. -/
theorem baseline_not_reproduced_below_unit_speed :
    rowSlow.speed_knots = some (1 / 2) ∧ rowSlow.profit = some 0 ∧
    rowSlow.vlsfo_price = some 500 ∧ rowSlow.mgo_price = some 650 ∧
    (run_partial_voyage rowSlow 500 650 (1 / 2) 0 12000 3000).map RecalcResult.profit =
      some 7500 ∧ (7500 : ℚ) ≠ 0 := by
  refine ⟨rfl, rfl, rfl, rfl, ?_, by norm_num⟩
  norm_num [run_partial_voyage, rowSlow, max_def]

/-- C7 amended: recalculating at the baseline speed with extra_days = 0 and
override prices matching the record's recorded prices reproduces the baseline
profit exactly, provided the baseline speed is at least 1 so that the
max-guard in speed_factor is inactive. -/
theorem baseline_profit_reproduced (b : BaseRow) (vp mp dh op : ℚ)
    (h1 : 1 ≤ b.speed_knots.getD 12)
    (hv : b.vlsfo_price.getD vp = vp) (hm : b.mgo_price.getD mp = mp) :
    (run_partial_voyage b vp mp (b.speed_knots.getD 12) 0 dh op).map RecalcResult.profit =
      some (b.profit.getD 0) := by
  have hs : b.speed_knots.getD 12 ≠ 0 := (lt_of_lt_of_le zero_lt_one h1).ne'
  rw [run_partial_voyage_eq_kernel _ _ _ _ _ _ _ hs]
  simp only [Option.map_some', Option.some.injEq]
  simp only [pricingKernelSpec, max_eq_left h1, div_self hs, hv, hm, one_pow, mul_one]
  ring

/-- Witness for the amended C7 at a concrete record with baseline speed 12
and recorded prices 500 and 0. -/
theorem baseline_profit_reproduced_witness :
    (run_partial_voyage rowA 500 0 (rowA.speed_knots.getD 12) 0 12000 3000).map
      RecalcResult.profit = some (rowA.profit.getD 0) :=
  baseline_profit_reproduced rowA 500 0 12000 3000 (by decide) (by decide) (by decide)

/-- C8 counterexample: on a record whose vlsfo_price field is absent, the
implied revenue tracks the override price, and at a slow-steaming speed
(fuel_factor = 1/8 < 1) the recalculated profit strictly INCREASES when the
VLSFO price rises from 100 to 200 even though the recalculated consumption is
1 ton > 0. -/
theorem profit_increasing_when_price_field_absent :
    rowAbs.vlsfo_price = none ∧
    (run_partial_voyage rowAbs 100 0 6 0 12000 3000).map RecalcResult.fuel_vlsfo_mt = some 1 ∧
    (run_partial_voyage rowAbs 100 0 6 0 12000 3000).map RecalcResult.profit = some (-14300) ∧
    (run_partial_voyage rowAbs 200 0 6 0 12000 3000).map RecalcResult.profit = some (-13600) ∧
    (-14300 : ℚ) < -13600 := by
  refine ⟨rfl, ?_, ?_, ?_, by norm_num⟩ <;>
    norm_num [run_partial_voyage, rowAbs, max_def]

/-- C8 amended: for a record whose vlsfo_price field is PRESENT, with speed,
delay, MGO price and hire fixed, the recalculated profit is strictly
decreasing in the override vlsfo_price whenever the recalculated VLSFO
consumption is strictly positive. -/
theorem profit_strict_anti_in_vlsfo_price (b : BaseRow) (mp sk ed dh op q p1 p2 : ℚ)
    (r1 r2 : RecalcResult)
    (hq : b.vlsfo_price = some q)
    (h1 : run_partial_voyage b p1 mp sk ed dh op = some r1)
    (h2 : run_partial_voyage b p2 mp sk ed dh op = some r2)
    (hmt : 0 < r1.fuel_vlsfo_mt) (hp : p1 < p2) :
    r2.profit < r1.profit := by
  have hs : b.speed_knots.getD 12 ≠ 0 := by
    intro h0
    have hnone : run_partial_voyage b p1 mp sk ed dh op = none := by
      simp [run_partial_voyage, h0]
    rw [hnone] at h1
    exact absurd h1 (by simp)
  rw [run_partial_voyage_eq_kernel _ _ _ _ _ _ _ hs] at h1 h2
  injection h1 with h1
  injection h2 with h2
  subst h1
  subst h2
  have key : (pricingKernelSpec b p1 mp sk ed dh op).profit -
      (pricingKernelSpec b p2 mp sk ed dh op).profit =
      (pricingKernelSpec b p1 mp sk ed dh op).fuel_vlsfo_mt * (p2 - p1) := by
    simp only [pricingKernelSpec, hq, Option.getD_some]
    ring
  have hpos : 0 < (pricingKernelSpec b p1 mp sk ed dh op).fuel_vlsfo_mt * (p2 - p1) :=
    mul_pos hmt (sub_pos.mpr hp)
  linarith

/-- Witness for the amended C8 at a concrete record with a recorded price. -/
theorem profit_strict_anti_in_vlsfo_price_witness :
    (pricingKernelSpec rowA 600 0 12 0 12000 3000).profit <
      (pricingKernelSpec rowA 500 0 12 0 12000 3000).profit :=
  profit_strict_anti_in_vlsfo_price rowA 0 12 0 12000 3000 500 500 600
    (pricingKernelSpec rowA 500 0 12 0 12000 3000)
    (pricingKernelSpec rowA 600 0 12 0 12000 3000)
    rfl
    (run_partial_voyage_eq_kernel rowA 500 0 12 0 12000 3000 (by norm_num [rowA]))
    (run_partial_voyage_eq_kernel rowA 600 0 12 0 12000 3000 (by norm_num [rowA]))
    (by norm_num [pricingKernelSpec, rowA, max_def]) (by norm_num)

/-- C9: the recommendation branch is a total three-way partition of the
plane of (adj_profit, orig_profit) values: ASSIGN exactly when adj_profit is
nonnegative, HEDGE exactly when adj_profit lies strictly between
-0.05 * max(1, orig_profit) and 0, and DECLINE exactly when adj_profit is at
most -0.05 * max(1, orig_profit). -/
theorem recommendation_trichotomy (adj orig : ℚ) :
    (recommendation adj orig = .ASSIGN ↔ 0 ≤ adj) ∧
    (recommendation adj orig = .HEDGE ↔ -(5 / 100) * max 1 orig < adj ∧ adj < 0) ∧
    (recommendation adj orig = .DECLINE ↔ adj ≤ -(5 / 100) * max 1 orig) := by
  have hone : (1 : ℚ) ≤ max 1 orig := le_max_left 1 orig
  have hneg : -(5 / 100) * max 1 orig < 0 := by nlinarith
  unfold recommendation
  by_cases h0 : adj ≥ 0
  · rw [if_pos h0]
    exact ⟨⟨fun _ => h0, fun _ => rfl⟩,
      ⟨fun h => absurd h (by decide), fun h => absurd h.2 (not_lt.mpr h0)⟩,
      ⟨fun h => absurd h (by decide), fun h => absurd (lt_of_le_of_lt h hneg) (not_lt.mpr h0)⟩⟩
  · rw [if_neg h0]
    push_neg at h0
    by_cases h1 : adj > -(5 / 100) * max 1 orig
    · rw [if_pos h1]
      exact ⟨⟨fun h => absurd h (by decide), fun h => absurd h0 (not_lt.mpr h)⟩,
        ⟨fun _ => ⟨h1, h0⟩, fun _ => rfl⟩,
        ⟨fun h => absurd h (by decide), fun h => absurd h1 (not_lt.mpr h)⟩⟩
    · rw [if_neg h1]
      push_neg at h1
      exact ⟨⟨fun h => absurd h (by decide), fun h => absurd h0 (not_lt.mpr h)⟩,
        ⟨fun h => absurd h (by decide), fun h => absurd h.1 (not_lt.mpr h1)⟩,
        ⟨fun _ => h1, fun _ => rfl⟩⟩

/-- C10: every result dictionary produced by run_partial_voyage carries
adj_profit equal to profit and adj_tce equal to tce, so the presentation
layer's fallback for a missing adj_profit key can never fire. -/
theorem adjusted_keys_mirror_primary (b : BaseRow) (vp mp sk ed dh op : ℚ) (r : RecalcResult)
    (h : run_partial_voyage b vp mp sk ed dh op = some r) :
    r.adj_profit = r.profit ∧ r.adj_tce = r.tce := by
  by_cases hs : b.speed_knots.getD 12 = 0
  · have hnone : run_partial_voyage b vp mp sk ed dh op = none := by
      simp [run_partial_voyage, hs]
    rw [hnone] at h
    exact absurd h (by simp)
  · rw [run_partial_voyage_eq_kernel _ _ _ _ _ _ _ hs] at h
    injection h with h
    subst h
    exact ⟨rfl, rfl⟩

/-- Evaluation of the numpy.arange embedding when the distance from start to
stop is an exact positive multiple of the step: arange start
(start + k * step + step) step is the inclusive grid start, start + step,
..., start + k * step. -/
theorem arange_multiple (start step : ℚ) (k : ℕ) (hstep : 0 < step) :
    arange start (start + k * step + step) step =
      (List.range (k + 1)).map (fun i : ℕ => start + (i : ℚ) * step) := by
  unfold arange
  rw [if_pos hstep]
  have hq : (start + k * step + step - start) / step = ((k + 1 : ℕ) : ℚ) := by
    rw [div_eq_iff hstep.ne']
    push_cast
    ring
  rw [hq, Int.ceil_natCast, Int.toNat_natCast]

/-- A sweep range with positive step whose stop exceeds its start holds at
least one value. -/
theorem arange_ne_nil (start stop step : ℚ) (hstep : 0 < step) (h : start < stop) :
    arange start stop step ≠ [] := by
  unfold arange
  rw [if_pos hstep]
  have hpos : 0 < ⌈(stop - start) / step⌉ := Int.ceil_pos.mpr (div_pos (by linarith) hstep)
  intro hcontra
  rw [List.map_eq_nil_iff, List.range_eq_nil] at hcontra
  omega

/-- Evaluation of the single-value sweep range from 100 to 100 with step 1. -/
theorem arange_hundred : arange 100 (100 + 1) 1 = [100] := by
  have h1 : (100 + 1 : ℚ) = 100 + ((0 : ℕ) : ℚ) * 1 + 1 := by norm_num
  rw [h1, arange_multiple 100 1 0 (by norm_num)]
  norm_num [List.range_succ]

/-- The candidate profits at the doubled VLSFO price of 1000 for the pool of
rowA and rowB. -/
theorem profitsAt_pool_thousand : profitsAt [rowA, rowB] 1000 0 12 0 =
    some [⟨"A", "X", -500⟩, ⟨"B", "Y", -(999999 / 2000)⟩] := by
  simp only [profitsAt,
    run_partial_voyage_eq_kernel rowA 1000 0 12 0 12000 3000 (by norm_num [rowA]),
    run_partial_voyage_eq_kernel rowB 1000 0 12 0 12000 3000 (by norm_num [rowB])]
  simp only [show (pricingKernelSpec rowA 1000 0 12 0 12000 3000).profit = -500 from by
    norm_num [pricingKernelSpec, rowA, max_def],
    show (pricingKernelSpec rowB 1000 0 12 0 12000 3000).profit = -(999999 / 2000) from by
    norm_num [pricingKernelSpec, rowB, max_def]]
  rfl

/-- The first-seen maximum of the concrete pool profits at price 1000: rowB
wins, being very slightly less unprofitable than rowA. -/
theorem pyMax_pool_thousand : pyMax [⟨"A", "X", -500⟩, ⟨"B", "Y", -(999999 / 2000)⟩] =
    some ⟨"B", "Y", -(999999 / 2000)⟩ := by
  simp only [pyMax, List.foldl]
  norm_num

/-- The flip test fires against the UNPERTURBED base profit 0: rowB's key
differs and its profit is 499.9995 away from 0. -/
theorem flip_pool_thousand : FlipCond "A" "X" 0 ⟨"B", "Y", -(999999 / 2000)⟩ := by
  constructor
  · left
    decide
  · simp only [sub_zero, abs_neg]
    rw [abs_of_nonneg (by norm_num)]
    norm_num

/-- The sweep loop of the source bunker sweep flips at its single value 100
when measured against the unperturbed base profit 0. -/
theorem sweepLoop_pool_thousand : sweepLoop "A" "X" 0
    (fun pct => profitsAt [rowA, rowB] (500 * (1 + pct / 100)) 0 12 0) [100] =
    .ok (some (100, ⟨"B", "Y", -(999999 / 2000)⟩,
      [⟨"A", "X", -500⟩, ⟨"B", "Y", -(999999 / 2000)⟩])) := by
  simp only [sweepLoop]
  rw [show (500 : ℚ) * (1 + 100 / 100) = 1000 from by norm_num]
  simp only [profitsAt_pool_thousand, pyMax_pool_thousand]
  rw [if_pos flip_pool_thousand]

/-- The source bunker sweep at price_increase_start = 100 returns a flip at
its very first value because it measures against the baseline profit at the
unperturbed price. -/
theorem bunker_source_at_hundred :
    find_bunker_price_threshold rowA [rowA, rowB] 500 0 12 0 100 100 1 =
      .ok (some (100, ⟨"B", "Y", -(999999 / 2000)⟩,
        [⟨"A", "X", -500⟩, ⟨"B", "Y", -(999999 / 2000)⟩])) := by
  simp only [find_bunker_price_threshold,
    run_partial_voyage_eq_kernel rowA 500 0 12 0 12000 3000 (by norm_num [rowA]),
    show (pricingKernelSpec rowA 500 0 12 0 12000 3000).profit = 0 from by
      norm_num [pricingKernelSpec, rowA, max_def],
    arange_hundred]
  exact sweepLoop_pool_thousand

/-- The spec-worded bunker sweep at price_increase_start = 100 finds no flip:
measured against the baseline recalculated at the perturbed starting price,
rowB's profit is within epsilon of the base profit. -/
theorem bunker_specworded_at_hundred :
    find_bunker_price_threshold_spec rowA [rowA, rowB] 500 0 12 0 100 100 1 = .ok none := by
  simp only [find_bunker_price_threshold_spec]
  rw [show (500 : ℚ) * (1 + 100 / 100) = 1000 from by norm_num]
  simp only [run_partial_voyage_eq_kernel rowA 1000 0 12 0 12000 3000 (by norm_num [rowA]),
    show (pricingKernelSpec rowA 1000 0 12 0 12000 3000).profit = -500 from by
      norm_num [pricingKernelSpec, rowA, max_def],
    arange_hundred, sweepLoop]
  rw [show (500 : ℚ) * (1 + 100 / 100) = 1000 from by norm_num]
  simp only [profitsAt_pool_thousand, pyMax_pool_thousand]
  rw [if_neg]
  intro hc
  have h2 := hc.2
  rw [show (-(999999 / 2000 : ℚ) - -500) = 1 / 2000 from by norm_num] at h2
  rw [abs_of_nonneg (by norm_num)] at h2
  norm_num at h2

/-- C3 counterexample: at the nonzero starting value price_increase_start =
100, the source computes base_profit at the unperturbed vlsfo_price, not at
the sweep's starting value: on a concrete pool the source flips at the first
sweep value while the spec-worded reference sweep finds no flip at all. -/
theorem bunker_base_profit_not_at_start_value :
    find_bunker_price_threshold rowA [rowA, rowB] 500 0 12 0 100 100 1 =
      .ok (some (100, ⟨"B", "Y", -(999999 / 2000)⟩,
        [⟨"A", "X", -500⟩, ⟨"B", "Y", -(999999 / 2000)⟩])) ∧
    find_bunker_price_threshold_spec rowA [rowA, rowB] 500 0 12 0 100 100 1 = .ok none ∧
    find_bunker_price_threshold rowA [rowA, rowB] 500 0 12 0 100 100 1 ≠
      find_bunker_price_threshold_spec rowA [rowA, rowB] 500 0 12 0 100 100 1 := by
  refine ⟨bunker_source_at_hundred, bunker_specworded_at_hundred, ?_⟩
  rw [bunker_source_at_hundred, bunker_specworded_at_hundred]
  simp

/-- C3 amended: base_profit is computed at the unperturbed vlsfo_price, which
coincides with recalculating at the sweep's starting value exactly when
price_increase_start = 0; at zero start the source agrees with the
spec-worded sweep on every input. -/
theorem bunker_threshold_matches_spec_at_zero_start (b : BaseRow) (rows : List BaseRow)
    (vp mp sk ed ps pe st : ℚ) (h : ps = 0) :
    find_bunker_price_threshold b rows vp mp sk ed ps pe st =
      find_bunker_price_threshold_spec b rows vp mp sk ed ps pe st := by
  subst h
  simp only [find_bunker_price_threshold, find_bunker_price_threshold_spec]
  rw [show vp * (1 + (0 : ℚ) / 100) = vp from by ring]

/-- Witness for the amended C3 at a concrete call with zero starting value. -/
theorem bunker_threshold_matches_spec_at_zero_start_witness :
    find_bunker_price_threshold rowA [rowA] 500 650 12 0 0 2 1 =
      find_bunker_price_threshold_spec rowA [rowA] 500 650 12 0 0 2 1 :=
  bunker_threshold_matches_spec_at_zero_start rowA [rowA] 500 650 12 0 0 2 1 rfl

/-- C6 counterexample: called with an empty candidate pool, both sweeps crash
inside the max-selection step of their first iteration (the ValueError of
max on an empty sequence, modelled by the maxOfEmpty error): neither a
dedicated fail-fast empty-pool guard nor an immediate none-triple return. -/
theorem empty_pool_crashes_not_guarded :
    find_delay_threshold rowA [] 500 650 12 0 3 1 = .error .maxOfEmpty ∧
    find_bunker_price_threshold rowA [] 500 650 12 0 0 3 1 = .error .maxOfEmpty ∧
    (Except.error SweepError.maxOfEmpty :
      Except SweepError (Option (ℚ × ProfitEntry × List ProfitEntry))) ≠ .ok none := by
  obtain ⟨v, vs, hv⟩ := List.exists_cons_of_ne_nil
    (arange_ne_nil 0 (3 + 1) 1 (by norm_num) (by norm_num))
  refine ⟨?_, ?_, by simp⟩
  · simp only [find_delay_threshold,
      run_partial_voyage_eq_kernel rowA 500 650 12 0 12000 3000 (by norm_num [rowA]),
      hv, sweepLoop, profitsAt, pyMax]
  · simp only [find_bunker_price_threshold,
      run_partial_voyage_eq_kernel rowA 500 650 12 0 12000 3000 (by norm_num [rowA]),
      hv, sweepLoop, profitsAt, pyMax]

/-- C6 amended: for every call with an empty pool, a nonempty sweep range and
a baseline record that itself recalculates without error, both threshold
routines stop with the error raised inside the max-selection step of the
first iteration; no guard or none-triple return exists. -/
theorem empty_pool_error_in_max (b : BaseRow) (vp mp sk ed s e st : ℚ)
    (hb : b.speed_knots.getD 12 ≠ 0) (hst : 0 < st) (hse : s < e + st) :
    find_delay_threshold b [] vp mp sk s e st = .error .maxOfEmpty ∧
    find_bunker_price_threshold b [] vp mp sk ed s e st = .error .maxOfEmpty := by
  obtain ⟨v, vs, hv⟩ := List.exists_cons_of_ne_nil (arange_ne_nil s (e + st) st hst hse)
  constructor
  · simp only [find_delay_threshold,
      run_partial_voyage_eq_kernel b vp mp sk s 12000 3000 hb, hv, sweepLoop, profitsAt, pyMax]
  · simp only [find_bunker_price_threshold,
      run_partial_voyage_eq_kernel b vp mp sk ed 12000 3000 hb, hv, sweepLoop, profitsAt, pyMax]

/-- Witness for the amended C6 at a concrete call. -/
theorem empty_pool_error_in_max_witness :
    find_delay_threshold rowB [] 500 650 12 0 5 1 = .error .maxOfEmpty ∧
    find_bunker_price_threshold rowB [] 500 650 12 2 0 5 1 = .error .maxOfEmpty :=
  empty_pool_error_in_max rowB 500 650 12 2 0 5 1 (by norm_num [rowB]) (by norm_num)
    (by norm_num)

/-- Unfolding equation of the sweep loop on the empty range. -/
theorem sweepLoop_nil (cv cc : String) (bp : ℚ) (f : ℚ → Option (List ProfitEntry)) :
    sweepLoop cv cc bp f [] = .ok none := rfl

/-- Unfolding equation of the sweep loop when recalculation raises at the
head value. -/
theorem sweepLoop_cons_none (cv cc : String) (bp : ℚ) (f : ℚ → Option (List ProfitEntry))
    (v : ℚ) (vs : List ℚ) (hfx : f v = none) :
    sweepLoop cv cc bp f (v :: vs) = .error .zeroBaseSpeed := by
  simp [sweepLoop, hfx]

/-- Unfolding equation of the sweep loop when the profits list at the head
value is empty. -/
theorem sweepLoop_cons_maxnone (cv cc : String) (bp : ℚ) (f : ℚ → Option (List ProfitEntry))
    (v : ℚ) (vs : List ℚ) (ps : List ProfitEntry) (hfx : f v = some ps)
    (hm : pyMax ps = none) :
    sweepLoop cv cc bp f (v :: vs) = .error .maxOfEmpty := by
  simp [sweepLoop, hfx, hm]

/-- Unfolding equation of the sweep loop when the flip fires at the head
value. -/
theorem sweepLoop_cons_flip (cv cc : String) (bp : ℚ) (f : ℚ → Option (List ProfitEntry))
    (v : ℚ) (vs : List ℚ) (ps : List ProfitEntry) (top : ProfitEntry)
    (hfx : f v = some ps) (hm : pyMax ps = some top) (hflip : FlipCond cv cc bp top) :
    sweepLoop cv cc bp f (v :: vs) = .ok (some (v, top, ps)) := by
  simp [sweepLoop, hfx, hm, hflip]

/-- Unfolding equation of the sweep loop when the flip does not fire at the
head value. -/
theorem sweepLoop_cons_noflip (cv cc : String) (bp : ℚ) (f : ℚ → Option (List ProfitEntry))
    (v : ℚ) (vs : List ℚ) (ps : List ProfitEntry) (top : ProfitEntry)
    (hfx : f v = some ps) (hm : pyMax ps = some top) (hflip : ¬ FlipCond cv cc bp top) :
    sweepLoop cv cc bp f (v :: vs) = sweepLoop cv cc bp f vs := by
  simp [sweepLoop, hfx, hm, hflip]

/-- Unfolding of flipAt when the profits list and its maximum exist. -/
theorem flipAt_iff (cv cc : String) (bp : ℚ) (f : ℚ → Option (List ProfitEntry)) (v : ℚ)
    (ps : List ProfitEntry) (top : ProfitEntry) (hfx : f v = some ps)
    (hm : pyMax ps = some top) :
    (flipAt cv cc bp f v ↔ FlipCond cv cc bp top) := by
  simp [flipAt, hfx, hm]

/-- flipAt cannot fire when recalculation raises at v. -/
theorem flipAt_of_none (cv cc : String) (bp : ℚ) (f : ℚ → Option (List ProfitEntry)) (v : ℚ)
    (hfx : f v = none) : ¬ flipAt cv cc bp f v := by
  simp [flipAt, hfx]

/-- flipAt cannot fire when the profits list at v is empty. -/
theorem flipAt_of_maxnone (cv cc : String) (bp : ℚ) (f : ℚ → Option (List ProfitEntry))
    (v : ℚ) (ps : List ProfitEntry) (hfx : f v = some ps) (hm : pyMax ps = none) :
    ¬ flipAt cv cc bp f v := by
  simp [flipAt, hfx, hm]

/-- Soundness of the sweep loop on a strictly increasing range: a returned
triple consists of a range value whose profits list and first-seen maximum
are as computed, the flip fires there, and no strictly earlier range value
fires it, so the returned value is the smallest firing one. -/
theorem sweepLoop_ok_some (cv cc : String) (bp : ℚ) (f : ℚ → Option (List ProfitEntry))
    (L : List ℚ) (hpw : L.Pairwise (· < ·)) (v : ℚ) (t : ProfitEntry) (p : List ProfitEntry)
    (h : sweepLoop cv cc bp f L = .ok (some (v, t, p))) :
    v ∈ L ∧ f v = some p ∧ pyMax p = some t ∧ FlipCond cv cc bp t ∧
      ∀ w ∈ L, flipAt cv cc bp f w → v ≤ w := by
  induction L with
  | nil => exact absurd (h.symm.trans (sweepLoop_nil cv cc bp f)) (by simp)
  | cons x xs ih =>
    rw [List.pairwise_cons] at hpw
    obtain ⟨hx, hxs⟩ := hpw
    cases hfx : f x with
    | none =>
      rw [sweepLoop_cons_none cv cc bp f x xs hfx] at h
      exact absurd h (by simp)
    | some ps =>
      cases hm : pyMax ps with
      | none =>
        rw [sweepLoop_cons_maxnone cv cc bp f x xs ps hfx hm] at h
        exact absurd h (by simp)
      | some top =>
        by_cases hflip : FlipCond cv cc bp top
        · rw [sweepLoop_cons_flip cv cc bp f x xs ps top hfx hm hflip] at h
          injection h with h
          injection h with h
          obtain ⟨h1, h2, h3⟩ : x = v ∧ top = t ∧ ps = p := by
            simpa [Prod.ext_iff] using h
          subst h1
          subst h2
          subst h3
          refine ⟨List.mem_cons_self x xs, hfx, hm, hflip, ?_⟩
          intro w hw _
          rcases List.mem_cons.mp hw with rfl | hwxs
          · exact le_refl w
          · exact le_of_lt (hx w hwxs)
        · rw [sweepLoop_cons_noflip cv cc bp f x xs ps top hfx hm hflip] at h
          obtain ⟨hmem, hfv, hpm, hfc, hmin⟩ := ih hxs h
          refine ⟨List.mem_cons_of_mem x hmem, hfv, hpm, hfc, ?_⟩
          intro w hw hflipw
          rcases List.mem_cons.mp hw with rfl | hwxs
          · exact absurd ((flipAt_iff cv cc bp f w ps top hfx hm).mp hflipw) hflip
          · exact hmin w hwxs hflipw

/-- Completeness of the sweep loop: when every range value yields a
nonempty profits list, the loop returns the none-triple exactly when the
flip fires at no range value. -/
theorem sweepLoop_ok_none_iff (cv cc : String) (bp : ℚ) (f : ℚ → Option (List ProfitEntry))
    (L : List ℚ) (hok : ∀ v ∈ L, ∃ ps top, f v = some ps ∧ pyMax ps = some top) :
    (sweepLoop cv cc bp f L = .ok none ↔ ∀ v ∈ L, ¬ flipAt cv cc bp f v) := by
  induction L with
  | nil => simp [sweepLoop_nil]
  | cons x xs ih =>
    obtain ⟨ps, top, hfx, hm⟩ := hok x (List.mem_cons_self x xs)
    have hok2 : ∀ v ∈ xs, ∃ ps top, f v = some ps ∧ pyMax ps = some top :=
      fun v hv => hok v (List.mem_cons_of_mem x hv)
    by_cases hflip : FlipCond cv cc bp top
    · rw [sweepLoop_cons_flip cv cc bp f x xs ps top hfx hm hflip]
      constructor
      · intro hcontra
        exact absurd hcontra (by simp)
      · intro hall
        exact absurd ((flipAt_iff cv cc bp f x ps top hfx hm).mpr hflip)
          (hall x (List.mem_cons_self x xs))
    · rw [sweepLoop_cons_noflip cv cc bp f x xs ps top hfx hm hflip, ih hok2]
      constructor
      · intro hall w hw
        rcases List.mem_cons.mp hw with rfl | hwxs
        · rw [flipAt_iff cv cc bp f w ps top hfx hm]
          exact hflip
        · exact hall w hwxs
      · intro hall w hw
        exact hall w (List.mem_cons_of_mem x hw)

/-- Totality of the inner profits loop on a pool of records with nonzero
baseline speeds, preserving the pool size. -/
theorem profitsAt_isSome (rows : List BaseRow) (vp mp sk ed : ℚ)
    (h : ∀ r ∈ rows, r.speed_knots.getD 12 ≠ 0) :
    ∃ ps, profitsAt rows vp mp sk ed = some ps ∧ ps.length = rows.length := by
  induction rows with
  | nil => exact ⟨[], rfl, rfl⟩
  | cons r rs ih =>
    obtain ⟨ps, hps, hlen⟩ := ih (fun x hx => h x (List.mem_cons_of_mem r hx))
    refine ⟨⟨r.vessel, r.cargo, (pricingKernelSpec r vp mp sk ed 12000 3000).profit⟩ :: ps,
      ?_, by simp [hlen]⟩
    simp only [profitsAt,
      run_partial_voyage_eq_kernel r vp mp sk ed 12000 3000 (h r (List.mem_cons_self r rs)),
      hps]

/-- The first-seen maximum of a nonempty list exists. -/
theorem pyMax_of_ne_nil (l : List ProfitEntry) (h : l ≠ []) : ∃ t, pyMax l = some t := by
  cases l with
  | nil => exact absurd rfl h
  | cons x xs => exact ⟨_, rfl⟩

/-- The sweep grid with positive step is strictly increasing. -/
theorem grid_pairwise (start step : ℚ) (hstep : 0 < step) (n : ℕ) :
    ((List.range n).map (fun i : ℕ => start + (i : ℚ) * step)).Pairwise (· < ·) := by
  rw [List.pairwise_map]
  refine List.Pairwise.imp ?_ (List.pairwise_lt_range n)
  intro a b hab
  have hq : (a : ℚ) < (b : ℚ) := by exact_mod_cast hab
  have := mul_lt_mul_of_pos_right hq hstep
  linarith

/-- C2 counterexample: with an empty candidate pool the flip condition is
unsatisfiable at every sweep value (there is no top candidate), yet
find_delay_threshold does not return the none-triple: it stops with the
error raised inside the max-selection step. -/
theorem delay_flip_impossible_on_empty_pool :
    (¬ flipAt rowA.vessel rowA.cargo (pricingKernelSpec rowA 500 0 12 0 12000 3000).profit
        (fun u => profitsAt ([] : List BaseRow) 500 0 12 u) 0) ∧
    (¬ flipAt rowA.vessel rowA.cargo (pricingKernelSpec rowA 500 0 12 0 12000 3000).profit
        (fun u => profitsAt ([] : List BaseRow) 500 0 12 u) 1) ∧
    (¬ flipAt rowA.vessel rowA.cargo (pricingKernelSpec rowA 500 0 12 0 12000 3000).profit
        (fun u => profitsAt ([] : List BaseRow) 500 0 12 u) 2) ∧
    find_delay_threshold rowA [] 500 0 12 0 2 1 ≠ Except.ok none := by
  obtain ⟨v, vs, hv⟩ := List.exists_cons_of_ne_nil
    (arange_ne_nil 0 (2 + 1) 1 (by norm_num) (by norm_num))
  have hcomp : find_delay_threshold rowA [] 500 0 12 0 2 1 = .error .maxOfEmpty := by
    simp only [find_delay_threshold,
      run_partial_voyage_eq_kernel rowA 500 0 12 0 12000 3000 (by norm_num [rowA]),
      hv, sweepLoop, profitsAt, pyMax]
  refine ⟨?_, ?_, ?_, by rw [hcomp]; simp⟩ <;> simp [flipAt, profitsAt, pyMax]

/-- C2 amended: for a baseline record of nonzero baseline speed, a NONEMPTY
candidate pool of records with nonzero baseline speeds, and sweep parameters
with positive step whose end is start plus a natural multiple of step,
find_delay_threshold returns a triple (v, top, profits) only for the
smallest grid value v whose first-seen argmax-profit candidate changes key
and moves more than epsilon from the baseline profit at the starting value,
with top and profits the values computed at v; and it returns the
none-triple exactly when no grid value fires the flip condition. -/
theorem delay_threshold_characterization (b : BaseRow) (rows : List BaseRow)
    (vp mp sk s e st : ℚ) (k : ℕ)
    (hb : b.speed_knots.getD 12 ≠ 0)
    (hrows : ∀ r ∈ rows, r.speed_knots.getD 12 ≠ 0)
    (hne : rows ≠ [])
    (hst : 0 < st)
    (hk : e = s + k * st) :
    (∀ v t p, find_delay_threshold b rows vp mp sk s e st = .ok (some (v, t, p)) →
        v ∈ (List.range (k + 1)).map (fun i : ℕ => s + (i : ℚ) * st) ∧
        profitsAt rows vp mp sk v = some p ∧ pyMax p = some t ∧
        FlipCond b.vessel b.cargo (pricingKernelSpec b vp mp sk s 12000 3000).profit t ∧
        ∀ w ∈ (List.range (k + 1)).map (fun i : ℕ => s + (i : ℚ) * st),
          flipAt b.vessel b.cargo (pricingKernelSpec b vp mp sk s 12000 3000).profit
            (fun u => profitsAt rows vp mp sk u) w → v ≤ w) ∧
    (find_delay_threshold b rows vp mp sk s e st = .ok none ↔
      ∀ v ∈ (List.range (k + 1)).map (fun i : ℕ => s + (i : ℚ) * st),
        ¬ flipAt b.vessel b.cargo (pricingKernelSpec b vp mp sk s 12000 3000).profit
          (fun u => profitsAt rows vp mp sk u) v) := by
  have harr : arange s (e + st) st =
      (List.range (k + 1)).map (fun i : ℕ => s + (i : ℚ) * st) := by
    rw [hk]
    exact arange_multiple s st k hst
  have hfind : find_delay_threshold b rows vp mp sk s e st =
      sweepLoop b.vessel b.cargo (pricingKernelSpec b vp mp sk s 12000 3000).profit
        (fun u => profitsAt rows vp mp sk u)
        ((List.range (k + 1)).map fun i : ℕ => s + (i : ℚ) * st) := by
    simp only [find_delay_threshold, run_partial_voyage_eq_kernel b vp mp sk s 12000 3000 hb,
      harr]
  have hok : ∀ v ∈ (List.range (k + 1)).map (fun i : ℕ => s + (i : ℚ) * st),
      ∃ ps top, (fun u => profitsAt rows vp mp sk u) v = some ps ∧ pyMax ps = some top := by
    intro v _
    obtain ⟨ps, hps, hlen⟩ := profitsAt_isSome rows vp mp sk v hrows
    have hps_ne : ps ≠ [] := by
      intro hnil
      have hlen0 : rows.length = 0 := by
        rw [← hlen, hnil]
        rfl
      exact hne (List.length_eq_zero.mp hlen0)
    obtain ⟨top, htop⟩ := pyMax_of_ne_nil ps hps_ne
    exact ⟨ps, top, hps, htop⟩
  constructor
  · intro v t p hcall
    rw [hfind] at hcall
    exact sweepLoop_ok_some b.vessel b.cargo
      (pricingKernelSpec b vp mp sk s 12000 3000).profit
      (fun u => profitsAt rows vp mp sk u) _
      (grid_pairwise s st hst (k + 1)) v t p hcall
  · rw [hfind]
    exact sweepLoop_ok_none_iff b.vessel b.cargo
      (pricingKernelSpec b vp mp sk s 12000 3000).profit
      (fun u => profitsAt rows vp mp sk u) _ hok

/-- Witness for the amended C2: the exhausted-range characterization applied
to a concrete single-record pool over the grid 0, 1, 2. -/
theorem delay_threshold_characterization_witness :
    find_delay_threshold rowA [rowA] 500 0 12 0 2 1 = .ok none ↔
      ∀ v ∈ (List.range (2 + 1)).map (fun i : ℕ => (0 : ℚ) + (i : ℚ) * 1),
        ¬ flipAt rowA.vessel rowA.cargo (pricingKernelSpec rowA 500 0 12 0 12000 3000).profit
          (fun u => profitsAt [rowA] 500 0 12 u) v :=
  (delay_threshold_characterization rowA [rowA] 500 0 12 0 2 1 2 (by norm_num [rowA])
    (by simp [rowA]) (by simp) (by norm_num) (by norm_num)).2

/-- Witness for C10 at a concrete record. -/
theorem adjusted_keys_mirror_primary_witness :
    (pricingKernelSpec rowA 500 650 12 0 12000 3000).adj_profit =
        (pricingKernelSpec rowA 500 650 12 0 12000 3000).profit ∧
      (pricingKernelSpec rowA 500 650 12 0 12000 3000).adj_tce =
        (pricingKernelSpec rowA 500 650 12 0 12000 3000).tce :=
  adjusted_keys_mirror_primary rowA 500 650 12 0 12000 3000
    (pricingKernelSpec rowA 500 650 12 0 12000 3000)
    (run_partial_voyage_eq_kernel rowA 500 650 12 0 12000 3000 (by norm_num [rowA]))

end VoyageEconomics
